import Mathlib

/-!
Verification of the smart-locator resolution engine of `ebay_automation_infra`
(`src/core/smart_locator.py` and the probe helpers of `src/core/base_page.py`).

The Python code drives a Playwright page; its only interesting logic is pure
control flow over the outcomes of page interactions.  We embed it shallowly:

* the data classes (`LocatorDefinition`, `SmartLocator`, `LocatorAttemptResult`,
  `LocatorResolutionResult`) become Lean structures, keeping the Python field
  names; the `timestamp` field (a wall-clock `datetime`) is omitted as no
  property concerns it;
* a Playwright `Locator` value is represented by the symbolic query the adapter
  `_get_playwright_locator` builds for it (inductive `PwLocator`);
* the page's behaviour during one attempt — whether `wait_for` times out,
  raises some other exception, or succeeds, and what `count()` then returns —
  is an oracle `env : Nat → Bool → WaitBehavior`, indexed by the 1-based
  attempt number and by `wait_for_visible`;
* exceptions become `Except`: the adapter returns `Except String PwLocator`
  (the `ValueError` of the unknown-kind arm and the `IndexError` that
  `split("=")[1]` can raise become `.error`), and Python's built-in string
  operations used by the ROLE arm (`str.split` with a one-character separator,
  `str.rstrip`) are re-implemented over `List Char`;
* `settings.LOCATOR.max_locator_retries` is a parameter `K` (its configured
  value is 3), and the effectful `_capture_failure_screenshot` is abstracted
  by the `Option String` value `shot` it would return.
-/

/-- `LocatorType` from `smart_locator.py`.  The Python `Enum` has eight
members; the extra constructor `unknown` models a `locator_type` field holding
a value outside the enum (possible in Python, which does not enforce the
annotation), carrying the string that `str()` would print for it.  Only the
`case _` arm of `_get_playwright_locator` ever distinguishes it. -/
inductive LocatorType where
  | xpath
  | css
  | text
  | role
  | test_id
  | label
  | placeholder
  | alt_text
  | unknown (repr : String)
deriving Repr, DecidableEq

/-- `LocatorDefinition`: one locator strategy. -/
structure LocatorDefinition where
  locator_type : LocatorType
  value : String
  description : String := ""
deriving Repr, DecidableEq

/-- `SmartLocator`: a named list of fallback strategies plus a timeout.
The default timeout is `settings.LOCATOR.locator_timeout = 5000`. -/
structure SmartLocator where
  name : String
  locators : List LocatorDefinition := []
  timeout : Int := 5000
deriving Repr, DecidableEq

/-- `LocatorAttemptResult`: the record of a single attempt (sans the
wall-clock `timestamp` field). -/
structure LocatorAttemptResult where
  locator_definition : LocatorDefinition
  attempt_number : Nat
  success : Bool
  error_message : Option String := none
deriving Repr, DecidableEq

/-- The symbolic form of the Playwright `Locator` the adapter builds:
one constructor per `page.…` query the `match` arms call. -/
inductive PwLocator where
  | selector (s : String)
  | byText (s : String)
  | byRole (role : String)
  | byRoleNamed (role : String) (name : String)
  | byTestId (s : String)
  | byLabel (s : String)
  | byPlaceholder (s : String)
  | byAltText (s : String)
deriving Repr, DecidableEq

/-- `LocatorResolutionResult`: the complete outcome of `resolve`. -/
structure LocatorResolutionResult where
  smart_locator_name : String
  success : Bool
  playwright_locator : Option PwLocator := none
  successful_locator : Option LocatorDefinition := none
  attempts : List LocatorAttemptResult := []
  total_attempts : Nat := 0
  screenshot_path : Option String := none
deriving Repr, DecidableEq

/-- Python `str.split(sep)` for a one-character separator, over `List Char`:
`"".split(s) = [""]`, and every occurrence of the separator cuts. -/
def pySplit (sep : Char) : List Char → List (List Char)
  | [] => [[]]
  | c :: rest =>
      if c = sep then [] :: pySplit sep rest
      else
        match pySplit sep rest with
        | [] => [[c]]
        | p :: ps => (c :: p) :: ps

/-- Python `str.rstrip(ch)` for a one-character strip set, over `List Char`:
removes every trailing occurrence of `ch`. -/
def pyRstrip (ch : Char) (l : List Char) : List Char :=
  (l.reverse.dropWhile (fun c => c = ch)).reverse

/-- `SmartLocatorResolver._get_playwright_locator`: converts a
`LocatorDefinition` to a Playwright locator.  `.error` marks the exceptions
the Python can raise here: the explicit `ValueError` of the `case _` arm, and
the `IndexError` from `split("=")[1]` when the bracketed part of a ROLE value
has no `=`. -/
def getPlaywrightLocator (ld : LocatorDefinition) : Except String PwLocator :=
  match ld.locator_type with
  | .xpath => .ok (.selector ("xpath=" ++ ld.value))
  | .css => .ok (.selector ld.value)
  | .text => .ok (.byText ld.value)
  | .role =>
      let parts := pySplit '[' ld.value.toList
      let role := String.mk (parts.headD [])
      if 1 < parts.length then
        match (pySplit '=' (pyRstrip ']' (parts.getD 1 []))).get? 1 with
        | some nm => .ok (.byRoleNamed role (String.mk nm))
        | none => .error "IndexError: list index out of range"
      else .ok (.byRole role)
  | .test_id => .ok (.byTestId ld.value)
  | .label => .ok (.byLabel ld.value)
  | .placeholder => .ok (.byPlaceholder ld.value)
  | .alt_text => .ok (.byAltText ld.value)
  | .unknown r => .error ("Unknown locator type: " ++ r)

/-- The page's possible behaviour for one attempt's interaction:
`wait_for` raises `PlaywrightTimeout`, raises some other exception, or
completes — in which case `count()` returns `count` (a `count()` call that
itself raised is subsumed by `exc`). -/
inductive WaitBehavior where
  | timeout (msg : String)
  | exc (msg : String)
  | ok (count : Nat)
deriving Repr, DecidableEq

/-- The body of one iteration of `resolve`'s `try` block, at attempt number
`n`: build the Playwright locator (its `ValueError`/`IndexError` is caught by
the `except Exception` arm, giving `str(e)` as the message), wait
(`PlaywrightTimeout` gives `"Timeout: " + str(e)`, any other exception gives
`str(e)`), then require `count() > 0` (else `"No elements found"`). -/
def attemptStep (env : Nat → Bool → WaitBehavior) (wfv : Bool) (n : Nat)
    (ld : LocatorDefinition) : Except String PwLocator :=
  match getPlaywrightLocator ld with
  | .error msg => .error msg
  | .ok pl =>
      match env n wfv with
      | .timeout msg => .error ("Timeout: " ++ msg)
      | .exc msg => .error msg
      | .ok count => if 0 < count then .ok pl else .error "No elements found"

/-- The `for attempt_num, locator_def in enumerate(…, 1)` loop of `resolve`,
over the truncated strategy list, starting at attempt number `n`, with the
result record accumulated so far.  On first success it fills the success
fields, appends the succeeded attempt and returns; on failure it appends the
failed attempt and continues; when the list is exhausted it records the
failure screenshot `shot` and returns. -/
def resolveLoop (env : Nat → Bool → WaitBehavior) (wfv : Bool)
    (shot : Option String) :
    List LocatorDefinition → Nat → LocatorResolutionResult →
    LocatorResolutionResult
  | [], _, result => { result with screenshot_path := shot }
  | ld :: rest, n, result =>
      let r1 := { result with total_attempts := n }
      match attemptStep env wfv n ld with
      | .ok pl =>
          { r1 with
            success := true
            playwright_locator := some pl
            successful_locator := some ld
            attempts := r1.attempts ++
              [{ locator_definition := ld, attempt_number := n,
                 success := true }] }
      | .error msg =>
          resolveLoop env wfv shot rest (n + 1)
            { r1 with
              attempts := r1.attempts ++
                [{ locator_definition := ld, attempt_number := n,
                   success := false, error_message := some msg }] }

/-- `SmartLocatorResolver.resolve`.  `K` is
`settings.LOCATOR.max_locator_retries`; `env` is the page oracle; `shot` is
what `_capture_failure_screenshot` would return on terminal failure. -/
def resolve (K : Nat) (env : Nat → Bool → WaitBehavior) (shot : Option String)
    (sl : SmartLocator) (wfv : Bool) : LocatorResolutionResult :=
  let result : LocatorResolutionResult :=
    { smart_locator_name := sl.name, success := false }
  if sl.locators.isEmpty then result
  else
    let maxAttempts := min sl.locators.length K
    resolveLoop env wfv shot (sl.locators.take maxAttempts) 1 result

/-- `ElementNotFoundError`, the only exception `smart_locator.py` defines. -/
structure ElementNotFoundError where
  message : String
deriving Repr, DecidableEq

/-- Python prints `None` for an absent `Optional[str]` in an f-string. -/
def pyOptStr : Option String → String
  | none => "None"
  | some s => s

/-- The f-string `find_element` raises with. -/
def notFoundMessage (name : String) (total : Nat) (shot : Option String) :
    String :=
  "Could not find element '" ++ name ++ "' after " ++ toString total ++
    " attempts. Screenshot: " ++ pyOptStr shot

/-- `SmartLocatorResolver.find_element`: resolve, raise
`ElementNotFoundError` on failure, otherwise return the resolved locator. -/
def find_element (K : Nat) (env : Nat → Bool → WaitBehavior)
    (shot : Option String) (sl : SmartLocator) (wfv : Bool) :
    Except ElementNotFoundError (Option PwLocator) :=
  let result := resolve K env shot sl wfv
  if !result.success then
    .error ⟨notFoundMessage sl.name result.total_attempts
      result.screenshot_path⟩
  else .ok result.playwright_locator

/-- `BasePage.is_element_present` (`base_page.py`).  The Python mutates
`smart_locator.timeout`, calls `resolve` with `wait_for_visible=False`, then
assigns the saved timeout back — with no `try/finally`.  We thread the
mutable `SmartLocator` state explicitly and model `resolve` as a possibly
raising computation `rres` (a `BaseException` such as `KeyboardInterrupt`
does propagate out of the real `resolve`): the pair returned is (outcome,
final state of the `SmartLocator` object). -/
def is_element_present
    (rres : SmartLocator → Bool → Except String LocatorResolutionResult)
    (sl : SmartLocator) (timeout : Int) :
    Except String Bool × SmartLocator :=
  let original_timeout := sl.timeout
  let sl1 := { sl with timeout := timeout }
  match rres sl1 false with
  | .error e => (.error e, sl1)
  | .ok result => (.ok result.success, { sl1 with timeout := original_timeout })

/-- `BasePage.is_element_visible`: identical to `is_element_present` except
that `resolve` is called with `wait_for_visible=True`. -/
def is_element_visible
    (rres : SmartLocator → Bool → Except String LocatorResolutionResult)
    (sl : SmartLocator) (timeout : Int) :
    Except String Bool × SmartLocator :=
  let original_timeout := sl.timeout
  let sl1 := { sl with timeout := timeout }
  match rres sl1 true with
  | .error e => (.error e, sl1)
  | .ok result => (.ok result.success, { sl1 with timeout := original_timeout })

/-! ### Helper notions for reasoning about the resolution loop -/

/-- One attempt fails (its `attemptStep` is an exceptional/zero-count
outcome, i.e. the loop records a failure and continues). -/
def stepFails (env : Nat → Bool → WaitBehavior) (wfv : Bool) (n : Nat)
    (ld : LocatorDefinition) : Bool :=
  match attemptStep env wfv n ld with
  | .error _ => true
  | .ok _ => false

/-- The error message of a failed `attemptStep`, if any. -/
def errMsgOf : Except String PwLocator → Option String
  | .error m => some m
  | .ok _ => none

/-- The trace of failed attempts the loop records for a run of consecutive
failing strategies, first attempt numbered `n`. -/
def failTrace (env : Nat → Bool → WaitBehavior) (wfv : Bool) :
    List LocatorDefinition → Nat → List LocatorAttemptResult
  | [], _ => []
  | ld :: rest, n =>
      { locator_definition := ld, attempt_number := n, success := false,
        error_message := errMsgOf (attemptStep env wfv n ld) } ::
        failTrace env wfv rest (n + 1)

/-- Position (0-based, relative to the given list) of the first strategy
whose attempt succeeds, the first attempt being numbered `n`. -/
def firstSuccessIdx (env : Nat → Bool → WaitBehavior) (wfv : Bool) :
    List LocatorDefinition → Nat → Option Nat
  | [], _ => none
  | ld :: rest, n =>
      if stepFails env wfv n ld then
        (firstSuccessIdx env wfv rest (n + 1)).map (· + 1)
      else some 0

/-- The truncated strategy list `resolve` iterates over:
`smart_locator.locators[:max_attempts]` with
`max_attempts = min(len(smart_locator.locators), K)`. -/
def truncated (sl : SmartLocator) (K : Nat) : List LocatorDefinition :=
  sl.locators.take (min sl.locators.length K)

/-- Scenario B of the spec: five strategies, all of which would fail. -/
def scenarioB : SmartLocator :=
  { name := "B"
    locators := [⟨.css, "a", ""⟩, ⟨.css, "b", ""⟩, ⟨.css, "c", ""⟩,
                 ⟨.css, "d", ""⟩, ⟨.css, "e", ""⟩] }

/-- Scenario A of the spec: a primary XPath that fails and a CSS fallback
that succeeds. -/
def scenarioA : SmartLocator :=
  { name := "Search Button"
    locators := [⟨.xpath, "missing", ""⟩, ⟨.css, "button.search", ""⟩] }

/-- A page behaviour for scenario A: the first attempt times out, the second
wait completes with one match. -/
def envScenarioA : Nat → Bool → WaitBehavior :=
  fun n _ => if n = 2 then .ok 1 else .timeout "t"

/-- A locator used to probe the timeout save/restore behaviour. -/
def probeLocator : SmartLocator := { name := "probe" }

/-- A `resolve` call that raises (e.g. a `KeyboardInterrupt` propagating out
of the loop, which no `except` clause of `resolve` stops). -/
def raisingResolve :
    SmartLocator → Bool → Except String LocatorResolutionResult :=
  fun _ _ => .error "KeyboardInterrupt"

/-- A locator whose first strategy carries a `locator_type` outside the
`LocatorType` enum and whose second strategy is a plain CSS selector. -/
def badKindLocator : SmartLocator :=
  { name := "bad"
    locators := [⟨.unknown "LocatorType.BOGUS", "x", ""⟩, ⟨.css, "ok", ""⟩] }

theorem failTrace_length (env : Nat → Bool → WaitBehavior) (wfv : Bool) :
    ∀ (L : List LocatorDefinition) (n : Nat),
      (failTrace env wfv L n).length = L.length := by
  intro L
  induction L with
  | nil => intro n; rfl
  | cons ld rest ih => intro n; simp [failTrace, ih]

theorem failTrace_get? (env : Nat → Bool → WaitBehavior) (wfv : Bool) :
    ∀ (L : List LocatorDefinition) (n k : Nat),
      (failTrace env wfv L n).get? k =
        (L.get? k).map (fun ld =>
          { locator_definition := ld, attempt_number := n + k, success := false,
            error_message := errMsgOf (attemptStep env wfv (n + k) ld) }) := by
  intro L
  induction L with
  | nil => intro n k; simp [failTrace]
  | cons ld rest ih =>
      intro n k
      cases k with
      | zero => simp [failTrace]
      | succ k =>
          simp only [failTrace, List.get?_cons_succ]
          rw [ih (n + 1) k]
          have h : n + 1 + k = n + (k + 1) := by omega
          rw [h]

theorem stepFails_ok {env : Nat → Bool → WaitBehavior} {wfv : Bool} {n : Nat}
    {ld : LocatorDefinition}
    (h : stepFails env wfv n ld = false) :
    ∃ pl, attemptStep env wfv n ld = .ok pl := by
  unfold stepFails at h
  cases hs : attemptStep env wfv n ld with
  | error m => rw [hs] at h; simp at h
  | ok pl => exact ⟨pl, rfl⟩

theorem stepFails_err {env : Nat → Bool → WaitBehavior} {wfv : Bool} {n : Nat}
    {ld : LocatorDefinition}
    (h : stepFails env wfv n ld = true) :
    ∃ m, attemptStep env wfv n ld = .error m := by
  unfold stepFails at h
  cases hs : attemptStep env wfv n ld with
  | error m => exact ⟨m, rfl⟩
  | ok pl => rw [hs] at h; simp at h

/-- Unfolding one failed iteration of the loop. -/
theorem resolveLoop_cons_fail (env : Nat → Bool → WaitBehavior) (wfv : Bool)
    (shot : Option String) (ld : LocatorDefinition)
    (rest : List LocatorDefinition) (n : Nat) (r : LocatorResolutionResult)
    (m : String) (hstep : attemptStep env wfv n ld = .error m) :
    resolveLoop env wfv shot (ld :: rest) n r =
      resolveLoop env wfv shot rest (n + 1)
        { r with
          total_attempts := n
          attempts := r.attempts ++
            [{ locator_definition := ld, attempt_number := n,
               success := false, error_message := some m }] } := by
  simp [resolveLoop, hstep]

/-- Unfolding a successful head iteration: the loop stops immediately. -/
theorem resolveLoop_cons_success (env : Nat → Bool → WaitBehavior) (wfv : Bool)
    (shot : Option String) (ld : LocatorDefinition)
    (rest : List LocatorDefinition) (n : Nat) (r : LocatorResolutionResult)
    (pl : PwLocator) (hstep : attemptStep env wfv n ld = .ok pl) :
    resolveLoop env wfv shot (ld :: rest) n r =
      { r with
        success := true
        total_attempts := n
        playwright_locator := some pl
        successful_locator := some ld
        attempts := r.attempts ++
          [{ locator_definition := ld, attempt_number := n,
             success := true }] } := by
  simp [resolveLoop, hstep]

/-- If every strategy of `L` fails (attempt numbers starting at `n`), the
loop appends the full failure trace, leaves the success fields of the
accumulator alone, sets the final attempt number and records the failure
screenshot. -/
theorem resolveLoop_allFail (env : Nat → Bool → WaitBehavior) (wfv : Bool)
    (shot : Option String) :
    ∀ (L : List LocatorDefinition) (n : Nat) (r : LocatorResolutionResult),
    (∀ k (hk : k < L.length), stepFails env wfv (n + k) (L.get ⟨k, hk⟩) = true) →
    resolveLoop env wfv shot L n r =
      { r with
        attempts := r.attempts ++ failTrace env wfv L n
        total_attempts := if L.isEmpty then r.total_attempts else n + L.length - 1
        screenshot_path := shot } := by
  intro L
  induction L with
  | nil => intro n r _; simp [resolveLoop, failTrace]
  | cons ld rest ih =>
      intro n r hfail
      have h0 : stepFails env wfv n ld = true := by
        have := hfail 0 (by simp)
        simpa using this
      obtain ⟨m, hm⟩ := stepFails_err h0
      rw [resolveLoop_cons_fail env wfv shot ld rest n r m hm]
      rw [ih (n + 1) _ (by
        intro k hk
        have := hfail (k + 1) (by simpa using Nat.succ_lt_succ hk)
        simpa [Nat.add_assoc, Nat.add_comm 1 k] using this)]
      simp only [failTrace, hm, errMsgOf]
      cases rest with
      | nil => simp [failTrace]
      | cons ld2 rest2 =>
          simp only [List.isEmpty_cons, List.length_cons, if_neg Bool.false_ne_true]
          congr 1
          · simp
          · omega

/-- Skipping a run of `i` failing strategies: the loop on `L` equals the loop
on `L.drop i` with the failure trace of the first `i` strategies already
accumulated. -/
theorem resolveLoop_skip (env : Nat → Bool → WaitBehavior) (wfv : Bool)
    (shot : Option String) :
    ∀ (i : Nat) (L : List LocatorDefinition) (n : Nat)
      (r : LocatorResolutionResult) (hi : i ≤ L.length),
    (∀ k (hk : k < i),
        stepFails env wfv (n + k) (L.get ⟨k, Nat.lt_of_lt_of_le hk hi⟩) = true) →
    resolveLoop env wfv shot L n r =
      resolveLoop env wfv shot (L.drop i) (n + i)
        { r with
          attempts := r.attempts ++ failTrace env wfv (L.take i) n
          total_attempts := if i = 0 then r.total_attempts else n + i - 1 } := by
  intro i
  induction i with
  | zero => intro L n r _ _; simp [failTrace]
  | succ i ih =>
      intro L n r hi hfail
      cases L with
      | nil => simp at hi
      | cons ld rest =>
          have h0 : stepFails env wfv n ld = true := by
            have := hfail 0 (Nat.succ_pos i)
            simpa using this
          obtain ⟨m, hm⟩ := stepFails_err h0
          rw [resolveLoop_cons_fail env wfv shot ld rest n r m hm]
          have hi' : i ≤ rest.length := by
            have h2 := hi
            simp only [List.length_cons] at h2
            omega
          rw [ih rest (n + 1) _ hi' (by
            intro k hk
            have := hfail (k + 1) (Nat.succ_lt_succ hk)
            simpa [Nat.add_assoc, Nat.add_comm 1 k] using this)]
          simp only [List.drop_succ_cons, List.take_succ_cons, failTrace, hm,
            errMsgOf]
          congr 1
          · omega
          · congr 1
            · simp
            · by_cases hz : i = 0
              · simp [hz]
              · simp [hz]

theorem firstSuccessIdx_none (env : Nat → Bool → WaitBehavior) (wfv : Bool) :
    ∀ (L : List LocatorDefinition) (n : Nat),
    firstSuccessIdx env wfv L n = none →
    ∀ k (hk : k < L.length), stepFails env wfv (n + k) (L.get ⟨k, hk⟩) = true := by
  intro L
  induction L with
  | nil => intro n _ k hk; simp at hk
  | cons ld rest ih =>
      intro n hnone k hk
      unfold firstSuccessIdx at hnone
      by_cases hf : stepFails env wfv n ld = true
      · rw [if_pos hf] at hnone
        have hrest : firstSuccessIdx env wfv rest (n + 1) = none := by
          cases hr : firstSuccessIdx env wfv rest (n + 1) with
          | none => rfl
          | some j => rw [hr] at hnone; simp at hnone
        cases k with
        | zero => simpa using hf
        | succ k =>
            have := ih (n + 1) hrest k (Nat.lt_of_succ_lt_succ hk)
            simpa [Nat.add_assoc, Nat.add_comm 1 k] using this
      · rw [if_neg hf] at hnone
        simp at hnone

theorem firstSuccessIdx_some (env : Nat → Bool → WaitBehavior) (wfv : Bool) :
    ∀ (L : List LocatorDefinition) (n i : Nat),
    firstSuccessIdx env wfv L n = some i →
    ∃ (hi : i < L.length) (pl : PwLocator),
      attemptStep env wfv (n + i) (L.get ⟨i, hi⟩) = .ok pl ∧
      ∀ k (hk : k < i),
        stepFails env wfv (n + k) (L.get ⟨k, Nat.lt_trans hk hi⟩) = true := by
  intro L
  induction L with
  | nil => intro n i h; simp [firstSuccessIdx] at h
  | cons ld rest ih =>
      intro n i hsome
      unfold firstSuccessIdx at hsome
      by_cases hf : stepFails env wfv n ld = true
      · rw [if_pos hf] at hsome
        cases hr : firstSuccessIdx env wfv rest (n + 1) with
        | none => rw [hr] at hsome; simp at hsome
        | some j =>
            rw [hr] at hsome
            simp at hsome
            obtain ⟨hj, pl, hpl, hprev⟩ := ih (n + 1) j hr
            have hij : i = j + 1 := by omega
            subst hij
            refine ⟨Nat.succ_lt_succ hj, pl, ?_, ?_⟩
            · simpa [Nat.add_assoc, Nat.add_comm 1 j] using hpl
            · intro k hk
              cases k with
              | zero => simpa using hf
              | succ k =>
                  have := hprev k (Nat.lt_of_succ_lt_succ hk)
                  simpa [Nat.add_assoc, Nat.add_comm 1 k] using this
      · rw [if_neg hf] at hsome
        have hi0 : i = 0 := by simpa using hsome.symm
        subst hi0
        obtain ⟨pl, hpl⟩ := stepFails_ok (Bool.not_eq_true _ ▸ hf)
        exact ⟨Nat.succ_pos _, pl, by simpa using hpl, fun k hk => absurd hk (Nat.not_lt_zero k)⟩

theorem resolveLoop_total_le (env : Nat → Bool → WaitBehavior) (wfv : Bool)
    (shot : Option String) :
    ∀ (L : List LocatorDefinition) (n : Nat) (r : LocatorResolutionResult),
    (resolveLoop env wfv shot L n r).total_attempts ≤
      max r.total_attempts (n - 1 + L.length) := by
  intro L
  induction L with
  | nil => intro n r; simp [resolveLoop]
  | cons ld rest ih =>
      intro n r
      cases hstep : attemptStep env wfv n ld with
      | ok pl =>
          rw [resolveLoop_cons_success env wfv shot ld rest n r pl hstep]
          simp only [List.length_cons]
          omega
      | error m =>
          rw [resolveLoop_cons_fail env wfv shot ld rest n r m hstep]
          have h := ih (n + 1)
            { r with
              total_attempts := n
              attempts := r.attempts ++
                [{ locator_definition := ld, attempt_number := n,
                   success := false, error_message := some m }] }
          simp only [List.length_cons] at h ⊢
          omega

theorem resolveLoop_attempts_le (env : Nat → Bool → WaitBehavior) (wfv : Bool)
    (shot : Option String) :
    ∀ (L : List LocatorDefinition) (n : Nat) (r : LocatorResolutionResult),
    (resolveLoop env wfv shot L n r).attempts.length ≤
      r.attempts.length + L.length := by
  intro L
  induction L with
  | nil => intro n r; simp [resolveLoop]
  | cons ld rest ih =>
      intro n r
      cases hstep : attemptStep env wfv n ld with
      | ok pl =>
          rw [resolveLoop_cons_success env wfv shot ld rest n r pl hstep]
          simp
      | error m =>
          rw [resolveLoop_cons_fail env wfv shot ld rest n r m hstep]
          have h := ih (n + 1)
            { r with
              total_attempts := n
              attempts := r.attempts ++
                [{ locator_definition := ld, attempt_number := n,
                   success := false, error_message := some m }] }
          simp at h ⊢
          omega

theorem resolveLoop_attempts_mem (env : Nat → Bool → WaitBehavior) (wfv : Bool)
    (shot : Option String) :
    ∀ (L : List LocatorDefinition) (n : Nat) (r : LocatorResolutionResult)
      (a : LocatorAttemptResult),
    a ∈ (resolveLoop env wfv shot L n r).attempts →
    a ∈ r.attempts ∨ a.locator_definition ∈ L := by
  intro L
  induction L with
  | nil => intro n r a ha; left; simpa [resolveLoop] using ha
  | cons ld rest ih =>
      intro n r a ha
      cases hstep : attemptStep env wfv n ld with
      | ok pl =>
          rw [resolveLoop_cons_success env wfv shot ld rest n r pl hstep] at ha
          simp only [List.mem_append, List.mem_singleton] at ha
          rcases ha with h | h
          · exact Or.inl h
          · right; subst h; simp
      | error m =>
          rw [resolveLoop_cons_fail env wfv shot ld rest n r m hstep] at ha
          have h := ih (n + 1) _ a ha
          simp only [List.mem_append, List.mem_singleton] at h
          rcases h with (h | h) | h
          · exact Or.inl h
          · right; subst h; simp
          · right; simp [h]

/-! ### Claim theorems -/

/-- C4: resolving a `SmartLocator` whose strategy list is empty returns
immediately — for every configured retry cap, page behaviour, screenshot
outcome and wait mode — with `success = false`, `total_attempts = 0`, an
empty attempt trace, no handle, no winning strategy and no screenshot; the
adapter is never consulted and nothing is raised (`resolve` is total). -/
theorem resolve_empty_strategies (K : Nat) (env : Nat → Bool → WaitBehavior)
    (shot : Option String) (sl : SmartLocator) (wfv : Bool)
    (h : sl.locators = []) :
    resolve K env shot sl wfv =
      { smart_locator_name := sl.name, success := false,
        playwright_locator := none, successful_locator := none,
        attempts := [], total_attempts := 0, screenshot_path := none } := by
  simp [resolve, h]

theorem resolve_empty_strategies_witness :
    resolve 3 (fun _ _ => .ok 1) (some "s.png") { name := "D" } true =
      { smart_locator_name := "D", success := false,
        playwright_locator := none, successful_locator := none,
        attempts := [], total_attempts := 0, screenshot_path := none } :=
  resolve_empty_strategies 3 (fun _ _ => .ok 1) (some "s.png")
    { name := "D" } true rfl

/-- C2: a single `resolve` call attempts at most `min(N, K)` strategies,
whatever the page does: `total_attempts` and the number of recorded attempt
records are both at most `min(N, K)`, and every recorded attempt concerns a
strategy among the first `min(N, K)` — strategies past that position are
never tried. -/
theorem resolve_attempts_capped (K : Nat) (env : Nat → Bool → WaitBehavior)
    (shot : Option String) (sl : SmartLocator) (wfv : Bool) :
    (resolve K env shot sl wfv).total_attempts ≤ min sl.locators.length K ∧
    (resolve K env shot sl wfv).attempts.length ≤ min sl.locators.length K ∧
    ∀ a ∈ (resolve K env shot sl wfv).attempts,
      a.locator_definition ∈ sl.locators.take (min sl.locators.length K) := by
  unfold resolve
  by_cases h : sl.locators.isEmpty
  · simp [h]
  · simp only [h, Bool.false_eq_true, if_false]
    have hlen : (sl.locators.take (min sl.locators.length K)).length =
        min sl.locators.length K := by
      simp only [List.length_take]
      omega
    refine ⟨?_, ?_, ?_⟩
    · have hb := resolveLoop_total_le env wfv shot
        (sl.locators.take (min sl.locators.length K)) 1
        { smart_locator_name := sl.name, success := false }
      rw [hlen] at hb
      simpa using hb
    · have hb := resolveLoop_attempts_le env wfv shot
        (sl.locators.take (min sl.locators.length K)) 1
        { smart_locator_name := sl.name, success := false }
      rw [hlen] at hb
      simpa using hb
    · intro a ha
      have hb := resolveLoop_attempts_mem env wfv shot
        (sl.locators.take (min sl.locators.length K)) 1
        { smart_locator_name := sl.name, success := false } a ha
      simpa using hb

theorem resolve_attempts_capped_witness :
    (resolve 3 (fun _ _ => .timeout "t") (some "s")
        { name := "B", locators :=
            [⟨.css, "a", ""⟩, ⟨.css, "b", ""⟩, ⟨.css, "c", ""⟩,
             ⟨.css, "d", ""⟩, ⟨.css, "e", ""⟩] } true).total_attempts ≤ 3 := by
  have h := (resolve_attempts_capped 3 (fun _ _ => .timeout "t") (some "s")
    { name := "B", locators :=
        [⟨.css, "a", ""⟩, ⟨.css, "b", ""⟩, ⟨.css, "c", ""⟩,
         ⟨.css, "d", ""⟩, ⟨.css, "e", ""⟩] } true).1
  simpa using h

/-- C3: when the strategy list is non-empty and every one of the
`min(N, K)` attempted strategies fails, `resolve` returns (it is a total
function) a result with `success = false`, no handle, no winning strategy,
`total_attempts = min(N, K)`, the full failure trace, and the failure
screenshot recorded. -/
theorem resolve_all_attempts_fail (K : Nat) (env : Nat → Bool → WaitBehavior)
    (shot : Option String) (sl : SmartLocator) (wfv : Bool)
    (hne : sl.locators ≠ [])
    (hfail : ∀ k (hk : k < min sl.locators.length K),
      stepFails env wfv (1 + k) (sl.locators.get ⟨k, by omega⟩) = true) :
    resolve K env shot sl wfv =
      { smart_locator_name := sl.name, success := false,
        playwright_locator := none, successful_locator := none,
        attempts :=
          failTrace env wfv (sl.locators.take (min sl.locators.length K)) 1,
        total_attempts := min sl.locators.length K,
        screenshot_path := shot } := by
  unfold resolve
  have hne2 : sl.locators.isEmpty = false := by
    cases hl : sl.locators with
    | nil => exact absurd hl hne
    | cons a l => simp
  simp only [hne2, Bool.false_eq_true, if_false]
  have hlen : (sl.locators.take (min sl.locators.length K)).length =
      min sl.locators.length K := by
    simp only [List.length_take]
    omega
  rw [resolveLoop_allFail env wfv shot
    (sl.locators.take (min sl.locators.length K)) 1
    { smart_locator_name := sl.name, success := false }
    (by
      intro k hk
      rw [hlen] at hk
      have hget : (sl.locators.take (min sl.locators.length K)).get
          ⟨k, by rw [hlen]; exact hk⟩ = sl.locators.get ⟨k, by omega⟩ := by
        simp [List.get_eq_getElem]
      rw [hget]
      exact hfail k hk)]
  by_cases hz : min sl.locators.length K = 0
  · have : sl.locators.take (min sl.locators.length K) = [] := by
      rw [hz]; simp
    simp [this, failTrace, hz]
  · have hle : (sl.locators.take (min sl.locators.length K)).isEmpty = false := by
      cases ht : sl.locators.take (min sl.locators.length K) with
      | nil =>
          rw [ht] at hlen
          simp at hlen
          omega
      | cons a l => simp
    simp only [hle, Bool.false_eq_true, if_false, hlen]
    congr 1
    omega

theorem truncated_length (sl : SmartLocator) (K : Nat) :
    (truncated sl K).length = min sl.locators.length K := by
  simp only [truncated, List.length_take]
  omega

theorem truncated_get (sl : SmartLocator) (K : Nat) (k : Nat)
    (hk : k < (truncated sl K).length) :
    (truncated sl K).get ⟨k, hk⟩ =
      sl.locators.get ⟨k, by
        have := truncated_length sl K
        omega⟩ := by
  simp [truncated, List.get_eq_getElem]

/-- If the first `i` strategies of the truncated list fail and the one at
position `i` succeeds with handle `pl`, `resolve` returns the first-success
record: `i` recorded failures, one recorded success, `total_attempts = i+1`.  -/
theorem resolve_firstSuccess_form (K : Nat) (env : Nat → Bool → WaitBehavior)
    (shot : Option String) (sl : SmartLocator) (wfv : Bool) (i : Nat)
    (pl : PwLocator) (hi : i < (truncated sl K).length)
    (hfail : ∀ k (hk : k < i),
      stepFails env wfv (1 + k)
        ((truncated sl K).get ⟨k, Nat.lt_trans hk hi⟩) = true)
    (hsucc : attemptStep env wfv (1 + i)
        ((truncated sl K).get ⟨i, hi⟩) = .ok pl) :
    resolve K env shot sl wfv =
      { smart_locator_name := sl.name, success := true,
        playwright_locator := some pl,
        successful_locator := some ((truncated sl K).get ⟨i, hi⟩),
        attempts :=
          failTrace env wfv ((truncated sl K).take i) 1 ++
            [{ locator_definition := (truncated sl K).get ⟨i, hi⟩,
               attempt_number := 1 + i, success := true }],
        total_attempts := 1 + i,
        screenshot_path := none } := by
  have hne : sl.locators.isEmpty = false := by
    cases hl : sl.locators with
    | nil =>
        rw [truncated_length] at hi
        rw [hl] at hi
        simp at hi
    | cons a l => simp
  unfold resolve
  simp only [hne, Bool.false_eq_true, if_false]
  have hloop :
      resolveLoop env wfv shot
        (sl.locators.take (min sl.locators.length K)) 1
        { smart_locator_name := sl.name, success := false } =
      resolveLoop env wfv shot (truncated sl K) 1
        { smart_locator_name := sl.name, success := false } := rfl
  rw [hloop]
  rw [resolveLoop_skip env wfv shot i (truncated sl K) 1
    { smart_locator_name := sl.name, success := false }
    (Nat.le_of_lt hi) (fun k hk => hfail k hk)]
  rw [List.drop_eq_getElem_cons (by exact hi)]
  rw [resolveLoop_cons_success env wfv shot _ _ (1 + i) _ pl
    (by
      have hg : (truncated sl K)[i] = (truncated sl K).get ⟨i, hi⟩ := rfl
      rw [hg]
      exact hsucc)]
  simp [List.get_eq_getElem]

/-- C1: first-success wins.  With 0-based index `i` (the claim's 1-based
strategy `i` is position `i - 1` here): if every strategy strictly before
position `i` of the truncated range fails while the attempt at position `i`
succeeds (adapter conversion and wait complete, match count ≥ 1 — i.e.
`attemptStep` yields the handle `pl`), then `resolve` stops immediately:
`success = true`, the winning strategy is the strategy at position `i`, the
handle field holds `pl`, `total_attempts = i + 1`, and the trace is exactly
the `i` failures followed by the one success — no later strategy is
attempted. -/
theorem resolve_first_success_wins (K : Nat) (env : Nat → Bool → WaitBehavior)
    (shot : Option String) (sl : SmartLocator) (wfv : Bool) (i : Nat)
    (pl : PwLocator)
    (hi : i < min sl.locators.length K)
    (hfail : ∀ k (hk : k < i),
      stepFails env wfv (1 + k) (sl.locators.get ⟨k, by omega⟩) = true)
    (hsucc : attemptStep env wfv (1 + i)
        (sl.locators.get ⟨i, by omega⟩) = .ok pl) :
    resolve K env shot sl wfv =
      { smart_locator_name := sl.name, success := true,
        playwright_locator := some pl,
        successful_locator := some (sl.locators.get ⟨i, by omega⟩),
        attempts :=
          failTrace env wfv (sl.locators.take i) 1 ++
            [{ locator_definition := sl.locators.get ⟨i, by omega⟩,
               attempt_number := 1 + i, success := true }],
        total_attempts := 1 + i,
        screenshot_path := none } := by
  have hi' : i < (truncated sl K).length := by
    rw [truncated_length]; exact hi
  have htk : (truncated sl K).take i = sl.locators.take i := by
    simp only [truncated, List.take_take]
    congr 1
    omega
  rw [resolve_firstSuccess_form K env shot sl wfv i pl hi'
    (by
      intro k hk
      rw [truncated_get]
      exact hfail k hk)
    (by
      rw [truncated_get]
      exact hsucc)]
  rw [truncated_get, htk]

theorem resolve_first_success_wins_witness :
    resolve 3 envScenarioA (some "s") scenarioA true =
      { smart_locator_name := "Search Button", success := true,
        playwright_locator := some (.selector "button.search"),
        successful_locator := some ⟨.css, "button.search", ""⟩,
        attempts := [⟨⟨.xpath, "missing", ""⟩, 1, false, some "Timeout: t"⟩,
                     ⟨⟨.css, "button.search", ""⟩, 2, true, none⟩],
        total_attempts := 2, screenshot_path := none } := by
  have h := resolve_first_success_wins 3 envScenarioA (some "s") scenarioA true 1
    (.selector "button.search") (by decide)
    (by
      intro k hk
      have hk0 : k = 0 := by omega
      subst hk0
      rfl)
    rfl
  rw [h]
  rfl

theorem resolve_all_attempts_fail_witness :
    resolve 3 (fun _ _ => .timeout "t") (some "s") scenarioB true =
      { smart_locator_name := "B", success := false,
        playwright_locator := none, successful_locator := none,
        attempts := [⟨⟨.css, "a", ""⟩, 1, false, some "Timeout: t"⟩,
                     ⟨⟨.css, "b", ""⟩, 2, false, some "Timeout: t"⟩,
                     ⟨⟨.css, "c", ""⟩, 3, false, some "Timeout: t"⟩],
        total_attempts := 3, screenshot_path := some "s" } := by
  have h := resolve_all_attempts_fail 3 (fun _ _ => .timeout "t") (some "s")
    scenarioB true (by decide)
    (by
      intro k hk
      have h3 : k < 3 := by
        simp only [scenarioB, List.length_cons, List.length_nil] at hk
        omega
      have hcase : k = 0 ∨ k = 1 ∨ k = 2 := by omega
      rcases hcase with rfl | rfl | rfl <;> rfl)
  rw [h]
  rfl

/-- C5: an attempted strategy whose adapter conversion succeeds and whose
wait completes but whose handle reports a match count of zero is recorded as
a failed attempt with error message "No elements found", and the loop
proceeds to the remaining strategies instead of succeeding or raising. -/
theorem zero_count_no_elements_found (env : Nat → Bool → WaitBehavior)
    (wfv : Bool) (shot : Option String) (ld : LocatorDefinition)
    (rest : List LocatorDefinition) (n : Nat) (r : LocatorResolutionResult)
    (pl : PwLocator)
    (hpl : getPlaywrightLocator ld = .ok pl)
    (henv : env n wfv = .ok 0) :
    resolveLoop env wfv shot (ld :: rest) n r =
      resolveLoop env wfv shot rest (n + 1)
        { r with
          total_attempts := n
          attempts := r.attempts ++
            [{ locator_definition := ld, attempt_number := n, success := false,
               error_message := some "No elements found" }] } := by
  have hstep : attemptStep env wfv n ld = .error "No elements found" := by
    simp [attemptStep, hpl, henv]
  exact resolveLoop_cons_fail env wfv shot ld rest n r _ hstep

theorem zero_count_no_elements_found_witness :
    resolveLoop (fun n _ => if n = 1 then .ok 0 else .ok 1) true none
        [⟨.css, "z", ""⟩, ⟨.css, "ok", ""⟩] 1
        { smart_locator_name := "C", success := false } =
      resolveLoop (fun n _ => if n = 1 then .ok 0 else .ok 1) true none
        [⟨.css, "ok", ""⟩] 2
        { smart_locator_name := "C", success := false,
          total_attempts := 1,
          attempts := [⟨⟨.css, "z", ""⟩, 1, false, some "No elements found"⟩] } := by
  have h := zero_count_no_elements_found
    (fun n _ => if n = 1 then .ok 0 else .ok 1) true none ⟨.css, "z", ""⟩
    [⟨.css, "ok", ""⟩] 1 { smart_locator_name := "C", success := false }
    (.selector "z") rfl rfl
  exact h

/-- C6: `find_element` raises `ElementNotFoundError` exactly when `resolve`
returns an unsuccessful result, and the raised message carries the locator's
name, the recorded attempt count and the artifact path; when `resolve`
succeeds, `find_element` returns the resolved handle and raises nothing. -/
theorem find_element_raises_iff_failed (K : Nat)
    (env : Nat → Bool → WaitBehavior) (shot : Option String)
    (sl : SmartLocator) (wfv : Bool) :
    ((resolve K env shot sl wfv).success = false →
      find_element K env shot sl wfv =
        .error ⟨notFoundMessage sl.name
          (resolve K env shot sl wfv).total_attempts
          (resolve K env shot sl wfv).screenshot_path⟩) ∧
    ((resolve K env shot sl wfv).success = true →
      find_element K env shot sl wfv =
        .ok (resolve K env shot sl wfv).playwright_locator) := by
  constructor
  · intro h
    simp [find_element, h]
  · intro h
    simp [find_element, h]

theorem find_element_raises_iff_failed_witness :
    find_element 3 (fun _ _ => .timeout "t") (some "s") scenarioB true =
      .error ⟨"Could not find element 'B' after 3 attempts. Screenshot: s"⟩ := by
  have h := (find_element_raises_iff_failed 3 (fun _ _ => .timeout "t")
    (some "s") scenarioB true).1 (by rfl)
  rw [h]
  rfl

/-- C7 counterexample: on a locator whose original `timeout` is 5000, a
probe with override 1 whose underlying `resolve` raises (here: a propagating
`KeyboardInterrupt`) leaves the overridden timeout in place — neither probe
restores it — refuting the claim that the original timeout is restored even
when `resolve` raises. -/
theorem probes_no_restore_on_raise_counterexample :
    probeLocator.timeout = 5000 ∧
    (is_element_present raisingResolve probeLocator 1).2.timeout = 1 ∧
    (is_element_visible raisingResolve probeLocator 1).2.timeout = 1 ∧
    (is_element_present raisingResolve probeLocator 1).1 =
      .error "KeyboardInterrupt" :=
  ⟨rfl, rfl, rfl, rfl⟩

/-- C7 (amended): when the underlying `resolve` returns normally, each probe
returns only the boolean `success` flag of the resolution and hands back the
locator with its original `timeoutMillis` restored; when `resolve` raises,
the exception propagates and the overridden timeout is left in place (the
code has no `finally`-style restore). -/
theorem probes_restore_timeout_on_normal_return
    (rres : SmartLocator → Bool → Except String LocatorResolutionResult)
    (sl : SmartLocator) (t : Int) :
    (∀ res, rres { sl with timeout := t } false = .ok res →
      is_element_present rres sl t = (.ok res.success, sl)) ∧
    (∀ res, rres { sl with timeout := t } true = .ok res →
      is_element_visible rres sl t = (.ok res.success, sl)) ∧
    (∀ e, rres { sl with timeout := t } false = .error e →
      is_element_present rres sl t = (.error e, { sl with timeout := t })) ∧
    (∀ e, rres { sl with timeout := t } true = .error e →
      is_element_visible rres sl t = (.error e, { sl with timeout := t })) := by
  obtain ⟨nm, locs, tmo⟩ := sl
  refine ⟨?_, ?_, ?_, ?_⟩ <;> intro x hx <;>
    simp [is_element_present, is_element_visible, hx]

theorem probes_restore_timeout_witness :
    is_element_present
        (fun s _ => .ok { smart_locator_name := s.name, success := true })
        probeLocator 1 =
      (.ok true, probeLocator) ∧
    is_element_visible raisingResolve probeLocator 1 =
      (.error "KeyboardInterrupt", { probeLocator with timeout := 1 }) := by
  constructor
  · exact (probes_restore_timeout_on_normal_return
      (fun s _ => .ok { smart_locator_name := s.name, success := true })
      probeLocator 1).1 _ rfl
  · exact (probes_restore_timeout_on_normal_return raisingResolve
      probeLocator 1).2.2.2 _ rfl

/-- C8 counterexample: the first strategy of `badKindLocator` carries a kind
outside the closed `LocatorType` set.  Its `ValueError` IS caught by
`resolve`'s blanket `except Exception`: the attempt is recorded as failed
with the error text and resolution falls back to — and succeeds with — the
next strategy, refuting "never caught, not recorded, no fallback". -/
theorem unknown_kind_counterexample :
    resolve 3 (fun _ _ => .ok 1) none badKindLocator true =
      { smart_locator_name := "bad", success := true,
        playwright_locator := some (.selector "ok"),
        successful_locator := some ⟨.css, "ok", ""⟩,
        attempts := [⟨⟨.unknown "LocatorType.BOGUS", "x", ""⟩, 1, false,
                      some "Unknown locator type: LocatorType.BOGUS"⟩,
                     ⟨⟨.css, "ok", ""⟩, 2, true, none⟩],
        total_attempts := 2, screenshot_path := none } := rfl

/-- C8 (amended): for a strategy whose kind is outside the closed
`LocatorType` set, the adapter does fail with the unchecked
`ValueError` "Unknown locator type: …" — but the resolution engine's
blanket `except Exception` handler catches it, records the attempt as failed
with that error text, and falls back to the next strategy. -/
theorem unknown_kind_caught_and_fallback (env : Nat → Bool → WaitBehavior)
    (wfv : Bool) (shot : Option String) (rep v d : String)
    (rest : List LocatorDefinition) (n : Nat)
    (acc : LocatorResolutionResult) :
    getPlaywrightLocator ⟨.unknown rep, v, d⟩ =
      .error ("Unknown locator type: " ++ rep) ∧
    resolveLoop env wfv shot (⟨.unknown rep, v, d⟩ :: rest) n acc =
      resolveLoop env wfv shot rest (n + 1)
        { acc with
          total_attempts := n
          attempts := acc.attempts ++
            [⟨⟨.unknown rep, v, d⟩, n, false,
              some ("Unknown locator type: " ++ rep)⟩] } := by
  refine ⟨rfl, ?_⟩
  exact resolveLoop_cons_fail env wfv shot _ rest n acc _ rfl

theorem get_of_get? {α : Type} {l : List α} {k : Nat} {a : α}
    (h : l.get? k = some a) (hk : k < l.length) : l.get ⟨k, hk⟩ = a := by
  rw [List.get?_eq_get hk] at h
  exact Option.some.inj h


/-- C10: the returned trace is consistent with the counters, for every
locator, configuration and page behaviour: the number of recorded attempts
equals `total_attempts`; the k-th recorded attempt (0-based `k`) carries
`attempt_number = k + 1` and refers to the k-th strategy of the locator; and
every recorded attempt except possibly the final one is a failure. -/
theorem resolve_trace_consistent (K : Nat) (env : Nat → Bool → WaitBehavior)
    (shot : Option String) (sl : SmartLocator) (wfv : Bool) :
    ((resolve K env shot sl wfv).attempts.length =
      (resolve K env shot sl wfv).total_attempts) ∧
    (∀ k (hk : k < (resolve K env shot sl wfv).attempts.length),
      ((resolve K env shot sl wfv).attempts.get ⟨k, hk⟩).attempt_number =
        k + 1 ∧
      ∃ (hk2 : k < sl.locators.length),
        ((resolve K env shot sl wfv).attempts.get ⟨k, hk⟩).locator_definition =
          sl.locators.get ⟨k, hk2⟩) ∧
    (∀ k (hk : k < (resolve K env shot sl wfv).attempts.length),
      k + 1 < (resolve K env shot sl wfv).attempts.length →
      ((resolve K env shot sl wfv).attempts.get ⟨k, hk⟩).success = false) := by
  cases hemp : sl.locators.isEmpty with
  | true =>
      have hres : resolve K env shot sl wfv =
          { smart_locator_name := sl.name, success := false } := by
        simp [resolve, hemp]
      rw [hres]
      refine ⟨rfl, ?_, ?_⟩ <;> intro k hk <;> simp at hk
  | false =>
      have hlen := truncated_length sl K
      have hlocs : sl.locators.length ≠ 0 := by
        cases hl : sl.locators with
        | nil => rw [hl] at hemp; simp at hemp
        | cons a l => simp
      cases hfs : firstSuccessIdx env wfv (truncated sl K) 1 with
      | none =>
          have hall := firstSuccessIdx_none env wfv (truncated sl K) 1 hfs
          have hres : resolve K env shot sl wfv =
              { smart_locator_name := sl.name, success := false,
                playwright_locator := none, successful_locator := none,
                attempts := failTrace env wfv (truncated sl K) 1,
                total_attempts :=
                  if (truncated sl K).isEmpty then 0
                  else 1 + (truncated sl K).length - 1,
                screenshot_path := shot } := by
            unfold resolve
            simp only [hemp, Bool.false_eq_true, if_false]
            have he : sl.locators.take (min sl.locators.length K) =
                truncated sl K := rfl
            rw [he]
            rw [resolveLoop_allFail env wfv shot (truncated sl K) 1
              { smart_locator_name := sl.name, success := false } hall]
            simp
          rw [hres]
          simp only
          refine ⟨?_, ?_, ?_⟩
          · rw [failTrace_length]
            cases ht : (truncated sl K).isEmpty with
            | true =>
                have h0 : (truncated sl K).length = 0 := by
                  cases h2 : truncated sl K with
                  | nil => rfl
                  | cons a l => rw [h2] at ht; simp at ht
                simp [ht, h0]
            | false =>
                have h0 : (truncated sl K).length ≠ 0 := by
                  cases h2 : truncated sl K with
                  | nil => rw [h2] at ht; simp at ht
                  | cons a l => simp
                simp only [ht, Bool.false_eq_true, if_false]
                omega
          · intro k hk
            have hkL : k < (truncated sl K).length := by
              rw [failTrace_length] at hk
              exact hk
            have hg : (failTrace env wfv (truncated sl K) 1).get ⟨k, hk⟩ =
                { locator_definition := (truncated sl K).get ⟨k, hkL⟩,
                  attempt_number := 1 + k, success := false,
                  error_message := errMsgOf
                    (attemptStep env wfv (1 + k)
                      ((truncated sl K).get ⟨k, hkL⟩)) } := by
              apply get_of_get?
              rw [failTrace_get?, List.get?_eq_get hkL]
              rfl
            rw [hg]
            refine ⟨Nat.add_comm 1 k, ⟨by omega, ?_⟩⟩
            exact truncated_get sl K k hkL
          · intro k hk _
            have hkL : k < (truncated sl K).length := by
              rw [failTrace_length] at hk
              exact hk
            have hg : (failTrace env wfv (truncated sl K) 1).get ⟨k, hk⟩ =
                { locator_definition := (truncated sl K).get ⟨k, hkL⟩,
                  attempt_number := 1 + k, success := false,
                  error_message := errMsgOf
                    (attemptStep env wfv (1 + k)
                      ((truncated sl K).get ⟨k, hkL⟩)) } := by
              apply get_of_get?
              rw [failTrace_get?, List.get?_eq_get hkL]
              rfl
            rw [hg]
      | some i =>
          obtain ⟨hi, pl, hpl, hprev⟩ :=
            firstSuccessIdx_some env wfv (truncated sl K) 1 i hfs
          rw [resolve_firstSuccess_form K env shot sl wfv i pl hi
            (fun k hk => hprev k hk) hpl]
          simp only
          have htk : ((truncated sl K).take i).length = i := by
            rw [List.length_take]
            omega
          have hlt : (failTrace env wfv ((truncated sl K).take i) 1).length =
              i := by
            rw [failTrace_length, htk]
          have hA : (failTrace env wfv ((truncated sl K).take i) 1 ++
              [({ locator_definition := (truncated sl K).get ⟨i, hi⟩,
                  attempt_number := 1 + i,
                  success := true } : LocatorAttemptResult)]).length = i + 1 := by
            rw [List.length_append, hlt]
            rfl
          have hgetk : ∀ k (hki : k < i) (hkb : k < (truncated sl K).length),
              (failTrace env wfv ((truncated sl K).take i) 1 ++
                [({ locator_definition := (truncated sl K).get ⟨i, hi⟩,
                    attempt_number := 1 + i,
                    success := true } : LocatorAttemptResult)]).get? k =
              some { locator_definition := (truncated sl K).get ⟨k, hkb⟩,
                     attempt_number := 1 + k, success := false,
                     error_message := errMsgOf
                       (attemptStep env wfv (1 + k)
                         ((truncated sl K).get ⟨k, hkb⟩)) } := by
            intro k hki hkb
            rw [List.get?_append (by rw [hlt]; exact hki)]
            rw [failTrace_get?]
            have hkt : k < ((truncated sl K).take i).length := by
              rw [htk]; exact hki
            rw [List.get?_eq_get hkt]
            have hgt : ((truncated sl K).take i).get ⟨k, hkt⟩ =
                (truncated sl K).get ⟨k, hkb⟩ := by
              simp [List.get_eq_getElem]
            rw [hgt]
            rfl
          have hgeti :
              (failTrace env wfv ((truncated sl K).take i) 1 ++
                [({ locator_definition := (truncated sl K).get ⟨i, hi⟩,
                    attempt_number := 1 + i,
                    success := true } : LocatorAttemptResult)]).get? i =
              some { locator_definition := (truncated sl K).get ⟨i, hi⟩,
                     attempt_number := 1 + i, success := true } := by
            rw [List.get?_append_right (by rw [hlt])]
            rw [hlt]
            simp
          refine ⟨?_, ?_, ?_⟩
          · rw [hA]
            omega
          · intro k hk
            have hible : i < sl.locators.length := by omega
            rcases Nat.lt_or_ge k i with hki | hki
            · have hkb : k < (truncated sl K).length := by omega
              rw [get_of_get? (hgetk k hki hkb) hk]
              refine ⟨Nat.add_comm 1 k, ⟨by omega, ?_⟩⟩
              exact truncated_get sl K k hkb
            · have hki2 : k = i := by
                rw [hA] at hk
                omega
              subst hki2
              rw [get_of_get? hgeti hk]
              refine ⟨Nat.add_comm 1 k, ⟨by omega, ?_⟩⟩
              exact truncated_get sl K k hi
          · intro k hk hk1
            rw [hA] at hk1
            have hki : k < i := by omega
            have hkb : k < (truncated sl K).length := by omega
            rw [get_of_get? (hgetk k hki hkb) hk]

theorem resolve_trace_consistent_witness :
    ((resolve 3 envScenarioA (some "s") scenarioA true).attempts.length =
      (resolve 3 envScenarioA (some "s") scenarioA true).total_attempts) ∧
    ((resolve 3 envScenarioA (some "s") scenarioA true).attempts.get
        ⟨0, by decide⟩).attempt_number = 1 := by
  constructor
  · exact (resolve_trace_consistent 3 envScenarioA (some "s") scenarioA true).1
  · exact ((resolve_trace_consistent 3 envScenarioA (some "s") scenarioA
      true).2.1 0 (by decide)).1

/-! ### String-splitting lemmas for the SEMANTIC_ROLE arm -/

theorem pySplit_no_sep (sep : Char) :
    ∀ l : List Char, sep ∉ l → pySplit sep l = [l] := by
  intro l
  induction l with
  | nil => intro _; rfl
  | cons c rest ih =>
      intro h
      have hc : ¬(c = sep) := fun he => h (he ▸ List.mem_cons_self c rest)
      have hrest : sep ∉ rest := fun hm => h (List.mem_cons_of_mem c hm)
      simp only [pySplit, if_neg hc, ih hrest]

theorem pySplit_cut (sep : Char) :
    ∀ (a rest : List Char), sep ∉ a →
    pySplit sep (a ++ sep :: rest) = a :: pySplit sep rest := by
  intro a
  induction a with
  | nil =>
      intro rest _
      simp [pySplit]
  | cons c a2 ih =>
      intro rest h
      have hc : ¬(c = sep) := fun he => h (he ▸ List.mem_cons_self c a2)
      have ha2 : sep ∉ a2 := fun hm => h (List.mem_cons_of_mem c hm)
      simp only [List.cons_append, pySplit, if_neg hc, List.append_eq]
      rw [ih rest ha2]

theorem dropWhile_eq_of_not_mem (ch : Char) :
    ∀ l : List Char, ch ∉ l → l.dropWhile (fun c => c = ch) = l := by
  intro l
  induction l with
  | nil => intro _; rfl
  | cons c rest _ =>
      intro h
      have hc : ¬(c = ch) := fun he => h (he ▸ List.mem_cons_self c rest)
      simp [List.dropWhile_cons, hc]

theorem pyRstrip_append_one (ch : Char) (l : List Char) (h : ch ∉ l) :
    pyRstrip ch (l ++ [ch]) = l := by
  have hrev : ch ∉ l.reverse := by
    intro hm
    exact h (List.mem_reverse.mp hm)
  simp only [pyRstrip, List.reverse_append, List.reverse_cons,
    List.reverse_nil, List.nil_append, List.singleton_append,
    List.dropWhile_cons]
  simp [dropWhile_eq_of_not_mem ch l.reverse hrev]

theorem string_mk_toList (s : String) : String.mk s.toList = s := rfl

/-- C9: SEMANTIC_ROLE parsing.  A value without `[` is queried by the role
alone with no name filter; a value of the form `role[name=X]` (with `X` free
of `[`, `]` and `=`) has its bracketed part stripped of the trailing `]`,
the text after `=` is taken as the accessible-name filter, and the query is
by role with that name. -/
theorem semantic_role_parsing (r nm d : String)
    (hr : ('[' : Char) ∉ r.toList)
    (h1 : ('[' : Char) ∉ nm.toList) (h2 : (']' : Char) ∉ nm.toList)
    (h3 : ('=' : Char) ∉ nm.toList) :
    getPlaywrightLocator ⟨.role, r, d⟩ = .ok (.byRole r) ∧
    getPlaywrightLocator ⟨.role, r ++ "[name=" ++ nm ++ "]", d⟩ =
      .ok (.byRoleNamed r nm) := by
  constructor
  · simp only [getPlaywrightLocator, pySplit_no_sep '[' r.toList hr]
    simp [string_mk_toList]
  · have ht : (r ++ "[name=" ++ nm ++ "]").toList =
        r.toList ++ '[' :: (['n', 'a', 'm', 'e', '='] ++
          (nm.toList ++ [']'])) := by
      show (r ++ "[name=" ++ nm ++ "]").data =
        r.data ++ '[' :: (['n', 'a', 'm', 'e', '='] ++ (nm.data ++ [']']))
      simp [String.data_append]
    have hnb : ('[' : Char) ∉
        (['n', 'a', 'm', 'e', '='] ++ (nm.toList ++ [']'])) := by
      intro hm
      rcases List.mem_append.mp hm with hm1 | hm2
      · simp at hm1
      · rcases List.mem_append.mp hm2 with hm3 | hm4
        · exact h1 hm3
        · simp at hm4
    have hsplit1 : pySplit '[' ((r ++ "[name=" ++ nm ++ "]").toList) =
        [r.toList, ['n', 'a', 'm', 'e', '='] ++ (nm.toList ++ [']'])] := by
      rw [ht, pySplit_cut '[' r.toList _ hr,
        pySplit_no_sep '[' _ hnb]
    have hstrip : pyRstrip ']'
        (['n', 'a', 'm', 'e', '='] ++ (nm.toList ++ [']'])) =
        ['n', 'a', 'm', 'e', '='] ++ nm.toList := by
      have hassoc : (['n', 'a', 'm', 'e', '='] ++ (nm.toList ++ [']'])) =
          (['n', 'a', 'm', 'e', '='] ++ nm.toList) ++ [']'] := by
        simp
      rw [hassoc]
      apply pyRstrip_append_one
      intro hm
      rcases List.mem_append.mp hm with hm1 | hm2
      · simp at hm1
      · exact h2 hm2
    have hsplit2 : pySplit '=' (['n', 'a', 'm', 'e', '='] ++ nm.toList) =
        [['n', 'a', 'm', 'e'], nm.toList] := by
      have he : (['n', 'a', 'm', 'e', '='] ++ nm.toList) =
          ['n', 'a', 'm', 'e'] ++ '=' :: nm.toList := by
        simp
      rw [he, pySplit_cut '=' ['n', 'a', 'm', 'e'] _ (by simp),
        pySplit_no_sep '=' _ h3]
    have hstripd : pyRstrip ']'
        ('n' :: 'a' :: 'm' :: 'e' :: '=' :: (nm.toList ++ [']'])) =
        'n' :: 'a' :: 'm' :: 'e' :: '=' :: nm.toList := hstrip
    have hsplit2d : pySplit '='
        ('n' :: 'a' :: 'm' :: 'e' :: '=' :: nm.toList) =
        [['n', 'a', 'm', 'e'], nm.toList] := hsplit2
    simp only [getPlaywrightLocator, hsplit1]
    rw [if_pos (by simp)]
    simp only [List.cons_append, List.nil_append, List.get?_cons_succ,
      List.get?_cons_zero, Option.getD_some, List.getD]
    rw [hstripd, hsplit2d]
    rfl

theorem semantic_role_parsing_witness :
    getPlaywrightLocator ⟨.role, "button", ""⟩ = .ok (.byRole "button") ∧
    getPlaywrightLocator ⟨.role, "button[name=Submit]", ""⟩ =
      .ok (.byRoleNamed "button" "Submit") := by
  have h := semantic_role_parsing "button" "Submit" ""
    (by decide) (by decide) (by decide) (by decide)
  have he : ("button" ++ "[name=" ++ "Submit" ++ "]" : String) =
      "button[name=Submit]" := rfl
  rw [he] at h
  exact h
